import Mathlib

/-!
# Attendance session engine: a shallow embedding

A verification development for the attendance-tracking UI prototype.
The live-session behaviour lives in `src/pages/teacher/SessionLive.tsx`:
a countdown driven by a one-second interval, an attendance list merged
idempotently on each simulated scan, an `endSession` handler that stops
the session, and a CSV report sorted ascending by roll number.
Session-creation validation lives in `src/pages/teacher/CreateSession.tsx`
(`handleSubmit`), and teacher-ID verification in
`src/pages/RoleSelection.tsx` (`verifyTeacherId`).

Timestamps (`new Date()`) are modelled as opaque natural numbers supplied
by the caller; the engine never inspects them.
-/

namespace AttendRev

/-- The `AttendanceRecord` interface from `SessionLive.tsx`: `{ rollNo: number; markedAt: Date }`. -/
structure AttendanceRecord where
  rollNo : Nat
  markedAt : Nat
deriving DecidableEq, Repr

/-- The mutable state of the live session page (`SessionLive.tsx`):
`timeRemaining`, `isActive`, `sessionEnded` and the `attendance` list,
in the order the `useState` hooks declare them. -/
structure SessionState where
  timeRemaining : Nat
  isActive : Bool
  sessionEnded : Bool
  attendance : List AttendanceRecord
deriving DecidableEq, Repr

/-- The marked-participant count displayed by the page (`attendance.length`). -/
def SessionState.markedCount (s : SessionState) : Nat :=
  s.attendance.length

/-- Initial state of the page after the mount effect ran:
`timeRemaining = sessionData.timerMinutes * 60` (here the duration is
passed directly in seconds), `isActive = true`, `sessionEnded = false`,
`attendance = []`. -/
def initSession (durationSeconds : Nat) : SessionState :=
  { timeRemaining := durationSeconds
    isActive := true
    sessionEnded := false
    attendance := [] }

/-- The page-level timer initialisation: `setTimeRemaining(sessionData.timerMinutes * 60)`. -/
def initFromTimerMinutes (timerMinutes : Nat) : SessionState :=
  initSession (timerMinutes * 60)

/-- The `endSession` handler from `SessionLive.tsx`: `setIsActive(false); setSessionEnded(true)`
(the `console.log` save is a side effect with no state change).  This is the
body of `confirmStopSession` and of the expiry branch of the countdown. -/
def endSession (s : SessionState) : SessionState :=
  { s with isActive := false, sessionEnded := true }

/-- One firing of the countdown interval in `SessionLive.tsx`.  The effect
is not installed when `!isActive || timeRemaining <= 0`, so those states see
no change.  Otherwise `setTimeRemaining(prev => ...)`: when `prev <= 1` the
callback calls `setIsActive(false)`, `endSession()` and returns `0`;
otherwise it returns `prev - 1`. -/
def tick (s : SessionState) : SessionState :=
  if !s.isActive || s.timeRemaining = 0 then s
  else if s.timeRemaining ≤ 1 then { endSession s with timeRemaining := 0 }
  else { s with timeRemaining := s.timeRemaining - 1 }

/-- One simulated scan from `SessionLive.tsx` (`simulateScans`), applied to
roll number `k` at time `t`.  The effect is not installed when `!isActive`,
so an inactive session sees no change.  Otherwise
`setAttendance(prev => prev.find(a => a.rollNo === k) ? prev : [...prev, { rollNo: k, markedAt: t }])`. -/
def mark (s : SessionState) (k : Nat) (t : Nat) : SessionState :=
  if !s.isActive then s
  else if s.attendance.any (fun a => a.rollNo == k) then s
  else { s with attendance := s.attendance ++ [⟨k, t⟩] }

/-- A mark event: a roll number paired with the arrival time its
`new Date()` would record. -/
def applyMarks (s : SessionState) (events : List (Nat × Nat)) : SessionState :=
  events.foldl (fun s e => mark s e.1 e.2) s

/-- The states the page can actually be in: the initial state of a session
with a positive duration, closed under timer ticks, simulated scans and
`endSession`. -/
inductive Reachable : SessionState → Prop where
  | init (durationSeconds : Nat) (hd : 0 < durationSeconds) :
      Reachable (initSession durationSeconds)
  | step_tick {s : SessionState} : Reachable s → Reachable (tick s)
  | step_mark {s : SessionState} (k t : Nat) : Reachable s → Reachable (mark s k t)
  | step_stop {s : SessionState} : Reachable s → Reachable (endSession s)

/-- Page invariant: `sessionEnded` is exactly the negation of `isActive`
(the two flags are only ever flipped together, by `endSession`), and an
active session always has time left on the clock. -/
theorem reachable_invariant {s : SessionState} (h : Reachable s) :
    s.sessionEnded = !s.isActive ∧ (s.isActive = true → 0 < s.timeRemaining) := by
  induction h with
  | init d hd => exact ⟨rfl, fun _ => hd⟩
  | @step_tick s hr ih =>
      rcases ih with ⟨h1, h2⟩
      unfold tick
      split
      · exact ⟨h1, h2⟩
      · rename_i hg
        simp only [Bool.or_eq_true, Bool.not_eq_true', decide_eq_true_eq] at hg
        push_neg at hg
        split
        · exact ⟨rfl, fun hact => by simp [endSession] at hact⟩
        · rename_i hle
          refine ⟨h1, fun _ => ?_⟩
          show 0 < s.timeRemaining - 1
          omega
  | @step_mark s k t hr ih =>
      rcases ih with ⟨h1, h2⟩
      unfold mark
      split
      · exact ⟨h1, h2⟩
      · split
        · exact ⟨h1, h2⟩
        · exact ⟨h1, h2⟩
  | @step_stop s hr ih =>
      exact ⟨rfl, by simp [endSession]⟩

/-- The finalized report, as assembled by `downloadReport` in
`SessionLive.tsx` and the success overlay: one row per attendance record,
`attendance.sort((a, b) => a.rollNo - b.rollNo)` (ascending by roll
number), together with the `attendance.length` count and the
`expectedBatch` capacity shown next to it. -/
structure AttendanceReport where
  markedCount : Nat
  capacity : Nat
  entries : List AttendanceRecord
deriving DecidableEq, Repr

/-- Build the report for a session of the given capacity from the page
state: `downloadReport` sorts the attendance ascending by `rollNo` and
emits one row per record. -/
def mkReport (capacity : Nat) (s : SessionState) : AttendanceReport :=
  { markedCount := s.attendance.length
    capacity := capacity
    entries := s.attendance.mergeSort (fun a b => a.rollNo ≤ b.rollNo) }

/-- The page only offers the report once the success overlay is up:
`{sessionEnded && ( ... <Button onClick={downloadReport}> ... )}`.
While the overlay is down there is nothing to retrieve. -/
def reportOpt (capacity : Nat) (s : SessionState) : Option AttendanceReport :=
  if s.sessionEnded then some (mkReport capacity s) else none

/-! ## Session creation (`CreateSession.tsx`) -/

/-- The form state of `CreateSession.tsx`: every field is the string held
by its input (`useState("")`), so a missing field is the empty string.
`group` and `notes` are optional. -/
structure CreateForm where
  semester : String
  year : String
  shift : String
  className : String
  group : String
  sessionType : String
  courseName : String
  expectedBatch : String
  timer : String
  timeFrom : String
  timeTo : String
  notes : String
deriving DecidableEq, Repr

/-- JavaScript `parseInt` restricted to the decimal digit strings a
`type="number"` input produces; `none` models `NaN`. -/
def jsParseInt (s : String) : Option Nat :=
  if s.data ≠ [] ∧ s.data.all Char.isDigit then
    some (s.data.foldl (fun n c => n * 10 + (c.toNat - 48)) 0)
  else none

/-- The `sessionData` object `handleSubmit` builds and hands to the live
page (minus the fields the engine never reads are still carried along). -/
structure SessionData where
  teacherId : String
  semester : String
  year : String
  shift : String
  className : String
  group : Option String
  date : String
  sessionType : String
  courseName : String
  expectedBatch : Option Nat
  timerMinutes : Option Nat
  timeFrom : String
  timeTo : String
  notes : Option String
deriving DecidableEq, Repr

/-- Outcome of submitting the create-session form: either the
"Missing Fields" toast (and no navigation), or navigation to the live
page with the assembled `sessionData`. -/
inductive CreateResult where
  | missingFields : CreateResult
  | created : SessionData → CreateResult
deriving DecidableEq, Repr

/-- The `handleSubmit` handler from `CreateSession.tsx`: shows the "Missing Fields"
toast when any required field is falsy (the empty string), otherwise
builds `sessionData` with `parseInt(expectedBatch)` and `parseInt(timer)`
and navigates to the live session.  No numeric range check is performed. -/
def handleSubmit (teacherId today : String) (f : CreateForm) : CreateResult :=
  if f.semester = "" || f.year = "" || f.shift = "" || f.className = "" ||
      f.sessionType = "" || f.courseName = "" || f.expectedBatch = "" ||
      f.timer = "" || f.timeFrom = "" || f.timeTo = "" then
    .missingFields
  else
    .created
      { teacherId := teacherId
        semester := f.semester
        year := f.year
        shift := f.shift
        className := f.className
        group := if f.group = "" then none else some f.group
        date := today
        sessionType := f.sessionType
        courseName := f.courseName
        expectedBatch := jsParseInt f.expectedBatch
        timerMinutes := jsParseInt f.timer
        timeFrom := f.timeFrom
        timeTo := f.timeTo
        notes := if f.notes = "" then none else some f.notes }

/-! ## Teacher ID verification (`RoleSelection.tsx`) -/

/-- The hard-coded allowlist in `RoleSelection.tsx`. -/
def VALID_TEACHER_IDS : List String :=
  ["T001", "T002", "T003", "TEACH123", "ADMIN"]

/-- JavaScript `String.prototype.toUpperCase` on the basic-latin strings
this page handles: uppercase every character. -/
def jsToUpperCase (s : String) : String :=
  ⟨s.data.map Char.toUpper⟩

/-- JavaScript `String.prototype.trim`: strip whitespace from both ends. -/
def jsTrim (s : String) : String :=
  ⟨((s.data.dropWhile Char.isWhitespace).reverse.dropWhile Char.isWhitespace).reverse⟩

/-- Outcome of `verifyTeacherId`: either navigate to `/teacher/create`
carrying a teacher ID, or display an error message. -/
inductive VerifyOutcome where
  | navigate (teacherId : String)
  | showError (message : String)
deriving DecidableEq, Repr

/-- The `verifyTeacherId` handler from `RoleSelection.tsx`: empty (after trim) input
is rejected; otherwise the upper-cased input is checked against the
allowlist and, on success, is what is passed to the next page. -/
def verifyTeacherId (input : String) : VerifyOutcome :=
  if jsTrim input = "" then .showError "Please enter your Teacher ID"
  else if jsToUpperCase input ∈ VALID_TEACHER_IDS then .navigate (jsToUpperCase input)
  else .showError "ID is wrong. Please check and try again."

/-! ## Helper lemmas -/

/-- The countdown callback never touches the attendance list. -/
theorem tick_attendance (s : SessionState) : (tick s).attendance = s.attendance := by
  unfold tick
  split
  · rfl
  · split <;> rfl

/-- The `endSession` handler never touches the attendance list. -/
theorem endSession_attendance (s : SessionState) : (endSession s).attendance = s.attendance :=
  rfl

/-- On an active session whose attendance does not yet contain any of the
(pairwise distinct) event keys, replaying the events appends them in
order, and the session stays active. -/
theorem applyMarks_fresh :
    ∀ (l : List (Nat × Nat)) (s : SessionState),
      s.isActive = true →
      (∀ e ∈ l, ∀ a ∈ s.attendance, a.rollNo ≠ e.1) →
      (l.map Prod.fst).Nodup →
      (applyMarks s l).attendance =
        s.attendance ++ l.map (fun e => AttendanceRecord.mk e.1 e.2) ∧
      (applyMarks s l).isActive = true := by
  intro l
  induction l with
  | nil => intro s ha _ _; simpa [applyMarks] using ha
  | cons e l ih =>
      intro s ha hfresh hnd
      have hany : (s.attendance.any fun a => a.rollNo == e.1) = false := by
        rw [List.any_eq_false]
        intro a hmem
        simpa using hfresh e (by simp) a hmem
      have hmark : mark s e.1 e.2 =
          { s with attendance := s.attendance ++ [⟨e.1, e.2⟩] } := by
        simp [mark, ha, hany]
      have hstep : applyMarks s (e :: l) = applyMarks (mark s e.1 e.2) l := by
        simp [applyMarks]
      rw [hstep, hmark]
      have hnd' : (l.map Prod.fst).Nodup := by
        simpa using hnd.of_cons
      have hnotin : e.1 ∉ l.map Prod.fst := by
        have := hnd
        simp only [List.map_cons, List.nodup_cons] at this
        exact this.1
      have hfresh' : ∀ e' ∈ l, ∀ a ∈ s.attendance ++ [(⟨e.1, e.2⟩ : AttendanceRecord)],
          a.rollNo ≠ e'.1 := by
        intro e' he' a hmem
        rcases List.mem_append.1 hmem with hmem | hmem
        · exact hfresh e' (by simp [he']) a hmem
        · have ha' : a = (⟨e.1, e.2⟩ : AttendanceRecord) := by simpa using hmem
          subst ha'
          intro hcontra
          have heq : e.1 = e'.1 := hcontra
          apply hnotin
          rw [heq]
          exact List.mem_map_of_mem Prod.fst he' 
      have := ih { s with attendance := s.attendance ++ [⟨e.1, e.2⟩] } ha hfresh' hnd'
      refine ⟨?_, this.2⟩
      rw [this.1]
      simp

/-- Whitespace characters are fixed points of `Char.toUpper`. -/
theorem toUpper_whitespace_eq {c : Char} (h : c.isWhitespace = true) :
    Char.toUpper c = c := by
  have h' : c = ' ' ∨ c = '\t' ∨ c = '\r' ∨ c = '\n' := by
    simpa [Char.isWhitespace, or_assoc] using h
  rcases h' with h' | h' | h' | h' <;> subst h' <;> decide

/-- A character whose upper-casing is not whitespace is itself not
whitespace. -/
theorem not_whitespace_of_toUpper {a c : Char} (h : Char.toUpper a = c)
    (hc : c.isWhitespace = false) : a.isWhitespace = false := by
  by_contra hh
  rw [Bool.not_eq_false] at hh
  rw [toUpper_whitespace_eq hh] at h
  subst h
  rw [hh] at hc
  cases hc

/-- Dropping leading whitespace does nothing when the first character is
not whitespace. -/
theorem dropWhile_eq_self_of_head {l : List Char} {a : Char}
    (ha : l.head? = some a) (hw : a.isWhitespace = false) :
    l.dropWhile Char.isWhitespace = l := by
  cases l with
  | nil => cases ha
  | cons x xs =>
      obtain rfl : x = a := by simpa using ha
      exact List.dropWhile_cons_of_neg (by simp [hw])

/-- If upper-casing a string hits a target whose first and last characters
are not whitespace, the original string survives `trim` unchanged and is
non-empty. -/
theorem trim_of_upper {s t : String} (h : jsToUpperCase s = t)
    (h0 : t.data ≠ [])
    (hh : t.data.head?.all (fun c => !c.isWhitespace) = true)
    (hl : t.data.getLast?.all (fun c => !c.isWhitespace) = true) :
    jsTrim s = s ∧ s ≠ "" := by
  have hdata : s.data.map Char.toUpper = t.data := congrArg String.data h
  obtain ⟨c0, hc0⟩ : ∃ c0, t.data.head? = some c0 := by
    cases ht : t.data.head? with
    | none => exact absurd (List.head?_eq_none_iff.1 ht) h0
    | some c0 => exact ⟨c0, rfl⟩
  obtain ⟨c1, hc1⟩ : ∃ c1, t.data.getLast? = some c1 := by
    cases ht : t.data.getLast? with
    | none => exact absurd (List.getLast?_eq_none_iff.1 ht) h0
    | some c1 => exact ⟨c1, rfl⟩
  have hwc0 : c0.isWhitespace = false := by
    rw [hc0] at hh; simpa using hh
  have hwc1 : c1.isWhitespace = false := by
    rw [hc1] at hl; simpa using hl
  obtain ⟨a, ha, hat⟩ : ∃ a, s.data.head? = some a ∧ Char.toUpper a = c0 := by
    have : s.data.head?.map Char.toUpper = some c0 := by
      rw [← List.head?_map, hdata, hc0]
    rcases Option.map_eq_some'.1 this with ⟨a, ha, hat⟩
    exact ⟨a, ha, hat⟩
  obtain ⟨b, hb, hbt⟩ : ∃ b, s.data.getLast? = some b ∧ Char.toUpper b = c1 := by
    have : s.data.getLast?.map Char.toUpper = some c1 := by
      rw [← List.getLast?_map, hdata, hc1]
    rcases Option.map_eq_some'.1 this with ⟨b, hb, hbt⟩
    exact ⟨b, hb, hbt⟩
  have hwa : a.isWhitespace = false := not_whitespace_of_toUpper hat hwc0
  have hwb : b.isWhitespace = false := not_whitespace_of_toUpper hbt hwc1
  have hd1 : s.data.dropWhile Char.isWhitespace = s.data :=
    dropWhile_eq_self_of_head ha hwa
  have hd2 : s.data.reverse.dropWhile Char.isWhitespace = s.data.reverse :=
    dropWhile_eq_self_of_head (by rw [List.head?_reverse]; exact hb) hwb
  constructor
  · apply String.ext
    show (((s.data.dropWhile Char.isWhitespace).reverse.dropWhile
        Char.isWhitespace)).reverse = s.data
    rw [hd1, hd2, List.reverse_reverse]
  · intro hcontra
    subst hcontra
    cases ha

/-! ## Claim theorems -/

/-- Claim C8: for every valid config (`capacity > 0`, `durationSeconds > 0`),
starting a session yields phase `Running` (`isActive`, not `sessionEnded`),
`timeRemaining` equal to the configured duration, and an empty marks set
(`markedCount = 0`). -/
theorem start_valid_config (capacity durationSeconds : Nat)
    (hc : 0 < capacity) (hd : 0 < durationSeconds) :
    (initSession durationSeconds).isActive = true ∧
    (initSession durationSeconds).sessionEnded = false ∧
    (initSession durationSeconds).timeRemaining = durationSeconds ∧
    (initSession durationSeconds).markedCount = 0 ∧
    (initSession durationSeconds).attendance = [] :=
  ⟨rfl, rfl, rfl, rfl, rfl⟩

/-- Witness for C8 at capacity 5, duration 3. -/
theorem start_valid_config_witness :
    (0 < 5 ∧ 0 < 3) ∧
    (initSession 3).isActive = true ∧ (initSession 3).timeRemaining = 3 ∧
    (initSession 3).markedCount = 0 :=
  have h := start_valid_config 5 3 (by decide) (by decide)
  ⟨⟨by decide, by decide⟩, h.1, h.2.2.1, h.2.2.2.1⟩

/-- Claim C2: marking is idempotent — a repeated `mark` for the same roll
number is a no-op (same state, hence same `markedCount` and same recorded
`markedAt`), and marking preserves the no-duplicate-keys invariant of the
attendance list. -/
theorem mark_idempotent (s : SessionState) (k t₁ t₂ : Nat) :
    mark (mark s k t₁) k t₂ = mark s k t₁ ∧
    (mark (mark s k t₁) k t₂).markedCount = (mark s k t₁).markedCount ∧
    ((s.attendance.map AttendanceRecord.rollNo).Nodup →
      ((mark s k t₁).attendance.map AttendanceRecord.rollNo).Nodup) := by
  have key : mark (mark s k t₁) k t₂ = mark s k t₁ := by
    by_cases ha : s.isActive = true
    · by_cases hf : (s.attendance.any fun a => a.rollNo == k) = true
      · simp [mark, ha, hf]
      · simp [mark, ha, hf, List.any_append]
    · rw [Bool.not_eq_true] at ha
      simp [mark, ha]
  refine ⟨key, by rw [key], ?_⟩
  intro hnd
  by_cases ha : s.isActive = true
  · by_cases hf : (s.attendance.any fun a => a.rollNo == k) = true
    · simpa [mark, ha, hf] using hnd
    · have hnotin : k ∉ s.attendance.map AttendanceRecord.rollNo := by
        intro hmem
        rcases List.mem_map.1 hmem with ⟨a, hmem', hak⟩
        exact (List.any_eq_false.1 (Bool.eq_false_iff.2 hf) a hmem') (by simp [hak])
      simp [mark, ha, hf, List.nodup_append, hnd, hnotin]
  · rw [Bool.not_eq_true] at ha
    simpa [mark, ha] using hnd

/-- Witness for C2 on a concrete session: the second mark of roll 2 is
dropped and the key list stays duplicate-free. -/
theorem mark_idempotent_witness :
    mark (mark (initSession 3) 2 0) 2 1 = mark (initSession 3) 2 0 ∧
    (((mark (initSession 3) 2 0).attendance.map AttendanceRecord.rollNo).Nodup) :=
  have h := mark_idempotent (initSession 3) 2 0 1
  ⟨h.1, h.2.2 (by decide)⟩

/-- Claim C3: once a session is ended (`isActive = false`), every `mark`
and every `tick` leaves the state untouched; in particular `endSession`
(the body of `stop`) makes all further `mark`/`tick` calls ineffective. -/
theorem ended_mark_tick_noop (s : SessionState) (k t : Nat) :
    (s.isActive = false → mark s k t = s ∧ tick s = s) ∧
    mark (endSession s) k t = endSession s ∧
    tick (endSession s) = endSession s := by
  refine ⟨fun h => ⟨?_, ?_⟩, ?_, ?_⟩
  · simp [mark, h]
  · simp [tick, h]
  · simp [mark, endSession]
  · simp [tick, endSession]

/-- Witness for C3 on a concrete stopped session. -/
theorem ended_mark_tick_noop_witness :
    mark (endSession (initSession 3)) 2 0 = endSession (initSession 3) ∧
    tick (endSession (initSession 3)) = endSession (initSession 3) ∧
    mark (endSession (initSession 3)) 4 1 = endSession (initSession 3) :=
  have h := ended_mark_tick_noop (endSession (initSession 3)) 2 0
  have h' := ended_mark_tick_noop (endSession (initSession 3)) 4 1
  ⟨(h.1 rfl).1, (h.1 rfl).2, (h'.1 rfl).1⟩

/-- Claim C7: `endSession` (the body of `stop`) moves the session to
`Ended` immediately, whatever `timeRemaining` is, without touching the
attendance, and makes the finalized report available; calling it on an
already-ended (reachable) session changes nothing. -/
theorem stop_immediate_and_idempotent (s : SessionState) (capacity : Nat) :
    (endSession s).isActive = false ∧
    (endSession s).sessionEnded = true ∧
    (endSession s).timeRemaining = s.timeRemaining ∧
    (endSession s).attendance = s.attendance ∧
    reportOpt capacity (endSession s) = some (mkReport capacity (endSession s)) ∧
    (Reachable s → s.isActive = false → endSession s = s) := by
  refine ⟨rfl, rfl, rfl, rfl, by simp [reportOpt, endSession], ?_⟩
  intro hr hin
  have h1 := (reachable_invariant hr).1
  rw [hin] at h1
  cases s
  simp only [endSession]
  simp_all

/-- Witness for C7: stopping an already-stopped session is a no-op. -/
theorem stop_immediate_and_idempotent_witness :
    endSession (endSession (initSession 3)) = endSession (initSession 3) ∧
    (endSession (initSession 3)).sessionEnded = true :=
  have h := stop_immediate_and_idempotent (endSession (initSession 3)) 5
  ⟨h.2.2.2.2.2 (Reachable.step_stop (Reachable.init 3 (by decide))) rfl, h.2.1⟩

/-- Claim C1: on every reachable running session the countdown has time
left and a tick decrements it by exactly one second; the tick that
reaches zero also flips the session to `Ended` in the same step; after
any tick the state `timeRemaining = 0 ∧ Running` is not observable; and
once ended, ticks change nothing. -/
theorem tick_countdown {s : SessionState} (hr : Reachable s) :
    (s.isActive = true →
      0 < s.timeRemaining ∧
      (tick s).timeRemaining = s.timeRemaining - 1 ∧
      (tick s).attendance = s.attendance ∧
      (1 < s.timeRemaining → (tick s).isActive = true ∧ (tick s).sessionEnded = false) ∧
      (s.timeRemaining = 1 →
        (tick s).isActive = false ∧ (tick s).sessionEnded = true ∧
        (tick s).timeRemaining = 0)) ∧
    ¬((tick s).timeRemaining = 0 ∧ (tick s).isActive = true) ∧
    (s.isActive = false → tick s = s) := by
  refine ⟨fun ha => ?_, ?_, fun hin => by simp [tick, hin]⟩
  · have hpos := (reachable_invariant hr).2 ha
    have hend : s.sessionEnded = false := by
      have h1 := (reachable_invariant hr).1
      rw [ha] at h1
      simpa using h1
    by_cases hone : s.timeRemaining = 1
    · have ht : tick s = { endSession s with timeRemaining := 0 } := by
        simp [tick, ha, hone]
      refine ⟨hpos, ?_, ?_, ?_, fun _ => ?_⟩
      · rw [ht, hone]
      · rw [ht]; rfl
      · intro hgt; omega
      · rw [ht]; exact ⟨rfl, rfl, rfl⟩
    · have h0 : ¬(s.timeRemaining = 0) := by omega
      have h1' : ¬(s.timeRemaining ≤ 1) := by omega
      have ht : tick s = { s with timeRemaining := s.timeRemaining - 1 } := by
        simp [tick, ha, h0, h1']
      refine ⟨hpos, by rw [ht], by rw [ht], fun _ => ?_, fun habs => absurd habs hone⟩
      rw [ht]
      exact ⟨ha, hend⟩
  · rintro ⟨h0, hact⟩
    have := (reachable_invariant (Reachable.step_tick hr)).2 hact
    omega

/-- Witness for C1: a 2-second session ticks down to 1 and stays running;
a 1-second session expires (ends) on its single tick; ticking a stopped
session changes nothing. -/
theorem tick_countdown_witness :
    (tick (initSession 2)).timeRemaining = 1 ∧
    (tick (initSession 2)).isActive = true ∧
    (tick (initSession 1)).isActive = false ∧
    (tick (initSession 1)).sessionEnded = true ∧
    (tick (initSession 1)).timeRemaining = 0 ∧
    tick (endSession (initSession 1)) = endSession (initSession 1) :=
  have h2 := tick_countdown (Reachable.init 2 (by decide))
  have h1 := tick_countdown (Reachable.init 1 (by decide))
  have h0 := tick_countdown (Reachable.step_stop (Reachable.init 1 (by decide)))
  ⟨(h2.1 rfl).2.1, ((h2.1 rfl).2.2.2.1 (by decide)).1,
    ((h1.1 rfl).2.2.2.2 rfl).1, ((h1.1 rfl).2.2.2.2 rfl).2.1,
    ((h1.1 rfl).2.2.2.2 rfl).2.2, h0.2.2 rfl⟩

/-- Claim C9: on every reachable state, no report is retrievable while
the session is running, and once it has ended the retrievable report is
stable — further `mark`, `tick` or `endSession` calls return the
identical report. -/
theorem report_gating (capacity : Nat) {s : SessionState} (hr : Reachable s) :
    (s.isActive = true → reportOpt capacity s = none) ∧
    (s.isActive = false →
      (∀ k t, reportOpt capacity (mark s k t) = reportOpt capacity s) ∧
      reportOpt capacity (tick s) = reportOpt capacity s ∧
      reportOpt capacity (endSession s) = reportOpt capacity s) := by
  have hinv := (reachable_invariant hr).1
  constructor
  · intro ha
    rw [ha] at hinv
    simp only [Bool.not_true] at hinv
    simp [reportOpt, hinv]
  · intro hin
    have hm : ∀ k t, mark s k t = s := fun k t => by simp [mark, hin]
    have htk : tick s = s := by simp [tick, hin]
    have hst : endSession s = s := by
      rw [hin] at hinv
      cases s
      simp only [endSession]
      simp_all
    exact ⟨fun k t => by rw [hm], by rw [htk], by rw [hst]⟩

/-- Witness for C9: a fresh 1-second session has no report; after it is
stopped, a late mark leaves the retrievable report identical. -/
theorem report_gating_witness :
    reportOpt 5 (initSession 1) = none ∧
    reportOpt 5 (mark (endSession (initSession 1)) 2 0) =
      reportOpt 5 (endSession (initSession 1)) :=
  have ha := report_gating 5 (Reachable.init 1 (by decide))
  have hb := report_gating 5 (Reachable.step_stop (Reachable.init 1 (by decide)))
  ⟨ha.1 rfl, (hb.2 rfl).1 2 0⟩

/-- Claim C6: the finalized report has exactly one entry per attendance
mark (its entry list is a permutation of the marks), sorted ascending by
roll number, and its count is the number of marks; in the concrete
scenario `start(capacity 5, duration 3); mark(2); mark(2); mark(4); stop()`
the report has `markedCount = 2` and entries for keys 2 then 4. -/
theorem report_sorted_one_per_mark :
    (∀ (capacity : Nat) (s : SessionState),
      (mkReport capacity s).entries.Pairwise (fun a b => a.rollNo ≤ b.rollNo) ∧
      (mkReport capacity s).entries.Perm s.attendance ∧
      (mkReport capacity s).markedCount = s.attendance.length) ∧
    (mkReport 5 (endSession
        (mark (mark (mark (initSession 3) 2 0) 2 1) 4 2))).markedCount = 2 ∧
    (mkReport 5 (endSession
        (mark (mark (mark (initSession 3) 2 0) 2 1) 4 2))).entries.map
      AttendanceRecord.rollNo = [2, 4] := by
  refine ⟨fun capacity s => ⟨?_, ?_, rfl⟩, by decide, ?_⟩
  · have hs := @List.sorted_mergeSort AttendanceRecord
      (fun a b : AttendanceRecord => decide (a.rollNo ≤ b.rollNo))
      (fun a b c hab hbc => by
        simp only [decide_eq_true_eq] at *
        omega)
      (fun a b => by
        simp only [Bool.or_eq_true, decide_eq_true_eq]
        omega)
      s.attendance
    exact hs.imp (fun h => by simpa using h)
  · exact List.mergeSort_perm s.attendance _
  · have hatt : (endSession
        (mark (mark (mark (initSession 3) 2 0) 2 1) 4 2)).attendance =
        [⟨2, 0⟩, ⟨4, 2⟩] := by decide
    show ((endSession
        (mark (mark (mark (initSession 3) 2 0) 2 1) 4 2)).attendance.mergeSort
        (fun a b => a.rollNo ≤ b.rollNo)).map AttendanceRecord.rollNo = [2, 4]
    rw [hatt, List.mergeSort_of_sorted (by decide)]
    rfl

/-- Claim C4: marking commutes across distinct keys — replaying any
permutation of a duplicate-free multiset of mark events on a fresh
running session, with a single `stop` or `tick` fixed at the end, yields
the identical final set of marks. -/
theorem mark_commutative (durationSeconds : Nat) (l₁ l₂ : List (Nat × Nat))
    (hd : 0 < durationSeconds) (hp : l₁.Perm l₂)
    (hnd : (l₁.map Prod.fst).Nodup) :
    ((endSession (applyMarks (initSession durationSeconds) l₁)).attendance :
        Multiset AttendanceRecord) =
      ((endSession (applyMarks (initSession durationSeconds) l₂)).attendance :
        Multiset AttendanceRecord) ∧
    ((tick (applyMarks (initSession durationSeconds) l₁)).attendance :
        Multiset AttendanceRecord) =
      ((tick (applyMarks (initSession durationSeconds) l₂)).attendance :
        Multiset AttendanceRecord) := by
  have hnd₂ : (l₂.map Prod.fst).Nodup := ((hp.map Prod.fst).nodup_iff).1 hnd
  have h₁ := applyMarks_fresh l₁ (initSession durationSeconds) rfl
    (fun e _ a ha => by simp [initSession] at ha) hnd
  have h₂ := applyMarks_fresh l₂ (initSession durationSeconds) rfl
    (fun e _ a ha => by simp [initSession] at ha) hnd₂
  have hmul : ((l₁.map fun e => AttendanceRecord.mk e.1 e.2 : List AttendanceRecord) :
      Multiset AttendanceRecord) =
      ((l₂.map fun e => AttendanceRecord.mk e.1 e.2 : List AttendanceRecord) :
      Multiset AttendanceRecord) :=
    Multiset.coe_eq_coe.2 (hp.map _)
  constructor
  · rw [endSession_attendance, endSession_attendance, h₁.1, h₂.1]
    simpa using hmul
  · rw [tick_attendance, tick_attendance, h₁.1, h₂.1]
    simpa using hmul

/-- Witness for C4: the two orders of marking rolls 2 and 4 give the same
final set of marks. -/
theorem mark_commutative_witness :
    ((endSession (applyMarks (initSession 3) [(2, 0), (4, 1)])).attendance :
        Multiset AttendanceRecord) =
      ((endSession (applyMarks (initSession 3) [(4, 1), (2, 0)])).attendance :
        Multiset AttendanceRecord) :=
  (mark_commutative 3 [(2, 0), (4, 1)] [(4, 1), (2, 0)] (by decide)
    (by decide) (by decide)).1

/-- A fully filled create-session form whose expected batch size is the
string `"0"` — a zero-capacity configuration. -/
def zeroCapacityForm : CreateForm :=
  { semester := "1"
    year := "2026"
    shift := "morning"
    className := "SWE Part III"
    group := ""
    sessionType := "theory"
    courseName := "Data Structures"
    expectedBatch := "0"
    timer := "5"
    timeFrom := "08:30"
    timeTo := "09:30"
    notes := "" }

/-- The session data `handleSubmit` builds from `zeroCapacityForm`. -/
def zeroCapacitySessionData : SessionData :=
  { teacherId := "T001"
    semester := "1"
    year := "2026"
    shift := "morning"
    className := "SWE Part III"
    group := none
    date := "2026-02-03"
    sessionType := "theory"
    courseName := "Data Structures"
    expectedBatch := some 0
    timerMinutes := some 5
    timeFrom := "08:30"
    timeTo := "09:30"
    notes := none }

/-- Counterexample to claim C5: submitting a form with capacity 0 (and
every required field filled) does not raise any configuration error — the
session is created, with `expectedBatch = 0`, and the user is navigated
to the live page. -/
theorem zero_capacity_accepted :
    handleSubmit "T001" "2026-02-03" zeroCapacityForm ≠ CreateResult.missingFields ∧
    handleSubmit "T001" "2026-02-03" zeroCapacityForm =
      CreateResult.created zeroCapacitySessionData ∧
    zeroCapacitySessionData.expectedBatch = some 0 := by
  refine ⟨by decide, by decide, rfl⟩

/-- Claim C5 as amended: `handleSubmit` rejects the form (with the
"Missing Fields" toast and no navigation) exactly when some required
field is the empty string; no numeric range check is performed, so a
zero capacity or zero duration passes validation and the session is
created with those values parsed as given. -/
theorem handleSubmit_validation (teacherId today : String) (f : CreateForm) :
    (handleSubmit teacherId today f = CreateResult.missingFields ↔
      (f.semester = "" ∨ f.year = "" ∨ f.shift = "" ∨ f.className = "" ∨
       f.sessionType = "" ∨ f.courseName = "" ∨ f.expectedBatch = "" ∨
       f.timer = "" ∨ f.timeFrom = "" ∨ f.timeTo = "")) ∧
    (¬(f.semester = "" ∨ f.year = "" ∨ f.shift = "" ∨ f.className = "" ∨
       f.sessionType = "" ∨ f.courseName = "" ∨ f.expectedBatch = "" ∨
       f.timer = "" ∨ f.timeFrom = "" ∨ f.timeTo = "") →
      handleSubmit teacherId today f = CreateResult.created
        { teacherId := teacherId
          semester := f.semester
          year := f.year
          shift := f.shift
          className := f.className
          group := if f.group = "" then none else some f.group
          date := today
          sessionType := f.sessionType
          courseName := f.courseName
          expectedBatch := jsParseInt f.expectedBatch
          timerMinutes := jsParseInt f.timer
          timeFrom := f.timeFrom
          timeTo := f.timeTo
          notes := if f.notes = "" then none else some f.notes }) := by
  unfold handleSubmit
  by_cases h : (f.semester = "" ∨ f.year = "" ∨ f.shift = "" ∨ f.className = "" ∨
      f.sessionType = "" ∨ f.courseName = "" ∨ f.expectedBatch = "" ∨
      f.timer = "" ∨ f.timeFrom = "" ∨ f.timeTo = "")
  · rw [if_pos (show _ = true by
      simp only [Bool.or_eq_true, decide_eq_true_eq, or_assoc]
      exact h)]
    exact ⟨iff_of_true rfl h, fun hcon => absurd h hcon⟩
  · rw [if_neg (show ¬(_ = true) by
      simp only [Bool.or_eq_true, decide_eq_true_eq, or_assoc]
      exact h)]
    exact ⟨iff_of_false (by simp) h, fun _ => rfl⟩

/-- Witness for the amended C5: the zero-capacity form passes validation
and produces the session data with `expectedBatch = some 0`. -/
theorem handleSubmit_validation_witness :
    handleSubmit "T001" "2026-02-03" zeroCapacityForm =
      CreateResult.created zeroCapacitySessionData :=
  have h := (handleSubmit_validation "T001" "2026-02-03" zeroCapacityForm).2
    (by decide)
  by rw [h]; decide

/-- Claim C10: teacher ID verification is case-insensitive — it navigates
exactly when the upper-cased input is in the fixed allowlist, and what it
carries forward is the upper-cased form, not the raw input; on any input
whose upper-casing is not in the list an error message is shown and no
navigation occurs. -/
theorem verifyTeacherId_spec (s : String) :
    (jsToUpperCase s ∈ VALID_TEACHER_IDS →
      verifyTeacherId s = VerifyOutcome.navigate (jsToUpperCase s)) ∧
    (jsToUpperCase s ∉ VALID_TEACHER_IDS →
      (verifyTeacherId s = VerifyOutcome.showError "Please enter your Teacher ID" ∨
       verifyTeacherId s =
         VerifyOutcome.showError "ID is wrong. Please check and try again.")) := by
  constructor
  · intro hmem
    have key : jsTrim s = s ∧ s ≠ "" := by
      have hm : jsToUpperCase s = "T001" ∨ jsToUpperCase s = "T002" ∨
          jsToUpperCase s = "T003" ∨ jsToUpperCase s = "TEACH123" ∨
          jsToUpperCase s = "ADMIN" := by
        simpa [VALID_TEACHER_IDS] using hmem
      rcases hm with h | h | h | h | h
      · exact trim_of_upper h (by decide) (by decide) (by decide)
      · exact trim_of_upper h (by decide) (by decide) (by decide)
      · exact trim_of_upper h (by decide) (by decide) (by decide)
      · exact trim_of_upper h (by decide) (by decide) (by decide)
      · exact trim_of_upper h (by decide) (by decide) (by decide)
    have hne : ¬(jsTrim s = "") := by
      rw [key.1]; exact key.2
    unfold verifyTeacherId
    rw [if_neg hne, if_pos hmem]
  · intro hmem
    unfold verifyTeacherId
    by_cases htrim : jsTrim s = ""
    · rw [if_pos htrim]
      exact Or.inl rfl
    · rw [if_neg htrim, if_neg hmem]
      exact Or.inr rfl

/-- Witness for C10: the lower-case input `"t001"` is accepted and
carried forward upper-cased; an unknown ID is rejected with the error
message. -/
theorem verifyTeacherId_spec_witness :
    verifyTeacherId "t001" = VerifyOutcome.navigate "T001" ∧
    verifyTeacherId "zzz" =
      VerifyOutcome.showError "ID is wrong. Please check and try again." := by
  have hup : jsToUpperCase "t001" = "T001" := by decide
  have h1 := (verifyTeacherId_spec "t001").1 (by rw [hup]; decide)
  have h2 := (verifyTeacherId_spec "zzz").2 (by decide)
  constructor
  · rw [hup] at h1; exact h1
  · rcases h2 with h | h
    · exact absurd h (by decide)
    · exact h

end AttendRev
